import Mathlib

/-
Verification of the core logic of the `tor-streamlit` dashboard
(`mt5_risk_dashboard_live_price.py`, `symbol_loader.py`, `streamlit_app.py`):
the risk-sizing calculator and the moving-average breakout backtester.

Modelling conventions:
* Python floats are modelled as exact rationals (`ℚ`); the properties checked
  here are structural (which formula is computed, which branch is taken), not
  about rounding.
* A Python `ZeroDivisionError` is modelled by an `Except`-valued computation
  that returns `CalcError.zeroDivision` exactly when the Python code would
  divide by zero; everywhere else the computation is total.
* A pandas `DataFrame` of OHLC bars is modelled as a `List Bar` in row order;
  the `Datetime` column is a naive timestamp in seconds, so pandas
  `.dt.hour` is `Datetime / 3600 % 24`.
-/

/-! ### Symbol loading (`symbol_loader.py`, `streamlit_app.py`) -/

/-- One record of the symbol list: `{"symbol": ..., "pip_precision": ...}`. -/
structure SymbolSpec where
  symbol : String
  pip_precision : ℚ
deriving DecidableEq, Repr

/-- The outcome of `requests.get("http://localhost:3600/api/trading/symbols")`
inside the `try` block of `load_symbols`: either a decoded response with a
status code and body, or an exception raised during the request/decoding. -/
inductive HttpAttempt where
  | response (status_code : Nat) (body : List SymbolSpec)
  | exn
deriving DecidableEq, Repr

/-- `symbol_loader.py` lines 4-15 (identical logic at
`mt5_risk_dashboard_live_price.py` lines 38-45): return the decoded body when
the request succeeds with status 200; read the local `symbols_config.json`
(here the parameter `localConfig`) only in the `except` branch; when the
request completes with a status other than 200 the function falls off the end
and returns Python `None`, modelled as `Option.none`. -/
def load_symbols (req : HttpAttempt) (localConfig : List SymbolSpec) :
    Option (List SymbolSpec) :=
  match req with
  | .response status_code body => if status_code = 200 then some body else none
  | .exn => some localConfig

/-- `streamlit_app.py` line 5 (and `mt5_risk_dashboard_live_price.py` line 73):
`[s["symbol"] for s in symbols]`.  Iterating over `None` raises a `TypeError`,
modelled as `Except.error ()`. -/
def symbol_names (syms : Option (List SymbolSpec)) : Except Unit (List String) :=
  match syms with
  | some l => .ok (l.map SymbolSpec.symbol)
  | none => .error ()

/-- `streamlit_app.py` line 9 (and `mt5_risk_dashboard_live_price.py` line 76):
`next((s["pip_precision"] for s in symbols if s["symbol"] == selected_symbol), 0.0001)`:
the `pip_precision` of the first record whose `symbol` matches, else `0.0001`. -/
def pip_precision_for (symbols : List SymbolSpec) (selected : String) : ℚ :=
  match symbols.find? (fun s => s.symbol == selected) with
  | some s => s.pip_precision
  | none => 0.0001

/-! ### Risk calculator (`mt5_risk_dashboard_live_price.py` lines 92-115) -/

/-- A division by zero, the only way the calculator can fail
(Python `ZeroDivisionError`). -/
inductive CalcError where
  | zeroDivision
deriving DecidableEq, Repr

/-- The inputs of one evaluation of the risk calculator, as read from the
widgets at lines 86-97 and 106-107.  `rr_value` is the reward multiple drawn
from `{"1:1": 1.0, "1:2": 2.0, "1:3": 3.0}`.  `stop_loss_price` /
`take_profit_price` are `some p` when the user typed `p` over the widget's
default, and `none` when the widget is left at the computed default. -/
structure RiskInputs where
  account_size : ℚ
  lot_size : ℚ
  risk_percent : ℚ
  entry_price : ℚ
  pip_precision : ℚ
  is_buy : Bool
  rr_value : ℚ
  stop_loss_price : Option ℚ
  take_profit_price : Option ℚ
deriving DecidableEq, Repr

/-- The quantities computed at lines 110-115 and shown in the summary. -/
structure RiskResult where
  stop_loss_price : ℚ
  take_profit_price : ℚ
  sl_pips : ℚ
  tp_pips : ℚ
  risk_amount : ℚ
  reward_amount : ℚ
  rr_ratio : ℚ
  suggested_lot_size : ℚ
deriving DecidableEq, Repr

/-- Line 100: `risk_dollar = account_size * (risk_percent / 100)`. -/
def risk_dollar (inp : RiskInputs) : ℚ :=
  inp.account_size * (inp.risk_percent / 100)

/-- Line 101: `sl_pips = risk_dollar / (lot_size * 10)` (the pre-override
default; `computeRisk` guards the division). -/
def default_sl_pips (inp : RiskInputs) : ℚ :=
  risk_dollar inp / (inp.lot_size * 10)

/-- Line 102: `tp_pips = sl_pips * rr_value` (the pre-override default). -/
def default_tp_pips (inp : RiskInputs) : ℚ :=
  default_sl_pips inp * inp.rr_value

/-- Line 103: `sl_price = entry_price - (sl_pips * pip_precision) if is_buy
else entry_price + (sl_pips * pip_precision)`. -/
def sl_price (inp : RiskInputs) : ℚ :=
  if inp.is_buy then
    inp.entry_price - default_sl_pips inp * inp.pip_precision
  else
    inp.entry_price + default_sl_pips inp * inp.pip_precision

/-- Line 104: `tp_price = entry_price + (tp_pips * pip_precision) if is_buy
else entry_price - (tp_pips * pip_precision)`. -/
def tp_price (inp : RiskInputs) : ℚ :=
  if inp.is_buy then
    inp.entry_price + default_tp_pips inp * inp.pip_precision
  else
    inp.entry_price - default_tp_pips inp * inp.pip_precision

/-- Lines 100-115 as one evaluation.  The script always computes the default
sizing (lines 100-104) first — so a zero `lot_size` raises at line 101 even
when manual prices are supplied — then feeds the defaults into the
`stop_loss_price` / `take_profit_price` widgets (lines 106-107, overridden by
the user when the corresponding input field is `some`), then recomputes the
reported pips from absolute price deltas (lines 110-111) and derives the
amounts, ratio and suggested lot (lines 112-115).  The two `if` guards mark
exactly the divisions Python performs unconditionally (lines 101 and
110-111); the ratio and suggested-lot divisions are guarded in the source
itself by `if risk_amount` / `if sl_pips`. -/
def computeRisk (inp : RiskInputs) : Except CalcError RiskResult :=
  if inp.lot_size * 10 = 0 then .error .zeroDivision
  else if inp.pip_precision = 0 then .error .zeroDivision
  else
    let stop_loss_price := inp.stop_loss_price.getD (sl_price inp)
    let take_profit_price := inp.take_profit_price.getD (tp_price inp)
    let sl_pips := |inp.entry_price - stop_loss_price| / inp.pip_precision
    let tp_pips := |take_profit_price - inp.entry_price| / inp.pip_precision
    let risk_amount := sl_pips * inp.lot_size * 10
    let reward_amount := tp_pips * inp.lot_size * 10
    .ok
      { stop_loss_price := stop_loss_price
        take_profit_price := take_profit_price
        sl_pips := sl_pips
        tp_pips := tp_pips
        risk_amount := risk_amount
        reward_amount := reward_amount
        rr_ratio := if risk_amount ≠ 0 then reward_amount / risk_amount else 0
        suggested_lot_size :=
          if sl_pips ≠ 0 then
            (inp.account_size * inp.risk_percent / 100) / (sl_pips * 10)
          else 0 }

/-! ### Breakout backtester (`mt5_risk_dashboard_live_price.py` lines 177-229) -/

/-- One row of the downloaded OHLC frame.  `Datetime` is the naive timestamp
in seconds (the source strips the timezone at line 182). -/
structure Bar where
  Datetime : Nat
  Open : ℚ
  High : ℚ
  Low : ℚ
  Close : ℚ
deriving DecidableEq, Repr

/-- Line 186: `df["Hour"] = pd.to_datetime(df["Datetime"]).dt.hour`. -/
def Bar.Hour (b : Bar) : Nat := b.Datetime / 3600 % 24

/-- The `session_filter` selectbox at line 175. -/
inductive SessionFilter where
  | All
  | London
  | NewYork
deriving DecidableEq, Repr

/-- Lines 187-190: `df[df["Hour"].between(7, 16)]` for London,
`df[df["Hour"].between(13, 21)]` for New York (pandas `between` is inclusive
at both ends), no filtering for All.  Row order is preserved. -/
def sessionFilter : SessionFilter → List Bar → List Bar
  | .All, bars => bars
  | .London, bars => bars.filter (fun b => decide (7 ≤ b.Hour ∧ b.Hour ≤ 16))
  | .NewYork, bars => bars.filter (fun b => decide (13 ≤ b.Hour ∧ b.Hour ≤ 21))

/-- A row of the frame that survives `df.dropna(inplace=True)` at line 208:
the bar together with its `MA21` value.  (`MA9`, added at line 198, is used
only for the chart; every row whose `MA21` is defined also has `MA9` defined,
since the 21-bar window is the longer one, so `dropna` keeps exactly the rows
with a defined `MA21`.) -/
structure Row where
  bar : Bar
  MA21 : ℚ
deriving DecidableEq, Repr

/-- Line 199 followed by line 208: `df["MA21"] = df["Close"].rolling(21).mean()`
then `df.dropna(inplace=True)`.  `rolling(21).mean()` is defined exactly on the
rows with 21 trailing bars available, with value the mean of their closes; the
rows dropped by `dropna` are the ones without such a window.  The surviving
rows, in order, are produced here: one `Row` per 21-bar window, carrying the
window's last bar and the mean of the window's closes. -/
def rows21 : List Bar → List Row
  | [] => []
  | b :: rest =>
    let w := (b :: rest).take 21
    if w.length = 21 then
      { bar := w.getLastD b, MA21 := (w.map Bar.Close).sum / 21 } :: rows21 rest
    else []

/-- One entry of the `trades` list built at line 221:
`{"entry": ..., "exit": ..., "result": ..., "balance": ...}`. -/
structure Trade where
  entry : ℚ
  exit : ℚ
  result : ℚ
  balance : ℚ
deriving DecidableEq, Repr

/-- Lines 211-221: the loop `for i in range(1, len(df))` over consecutive
row pairs of the post-`dropna` frame.  `prev` is row `i - 1`, the list
argument holds rows `i, i+1, ...`.  On a breakout signal
(`prev["Close"] < prev["MA21"] and curr["Close"] > curr["MA21"]`) the body
sets `entry = curr["Close"]`, `sl = entry - 0.0020`, `tp = entry + 0.0030`,
`result = tp - entry`, `profit = 1500 if result > 0 else -1000`, adds the
profit to the balance and appends the trade record. -/
def backtestLoop : ℚ → Row → List Row → List Trade
  | _, _, [] => []
  | balance, prev, curr :: rest =>
    if prev.bar.Close < prev.MA21 ∧ curr.bar.Close > curr.MA21 then
      let entry := curr.bar.Close
      let sl := entry - 0.0020
      let tp := entry + 0.0030
      let result := tp - entry
      let profit : ℚ := if result > 0 then 1500 else -1000
      let newBalance := balance + profit
      { entry := entry
        exit := if profit > 0 then tp else sl
        result := profit
        balance := newBalance } :: backtestLoop newBalance curr rest
    else
      backtestLoop balance curr rest

/-- Lines 186-221 end to end: filter the bars by session, build the rows that
survive the moving-average `dropna`, and run the loop from `balance = 100000`
starting at the second surviving row (`range(1, len(df))`).  An empty or
single-row frame yields no trades. -/
def runBacktest (sf : SessionFilter) (bars : List Bar) : List Trade :=
  match rows21 (sessionFilter sf bars) with
  | [] => []
  | r :: rs => backtestLoop 100000 r rs

/-! ### Concrete inputs used by the closed theorems below -/

/-- The reference inputs of spec §8: 1% risk on a 10000 account, lot 0.10,
EURUSD-style pip 0.0001, entry 1.1400, Buy, reward "1:2", widgets left at
their computed defaults. -/
def c4Input : RiskInputs :=
  { account_size := 10000
    lot_size := 0.10
    risk_percent := 1
    entry_price := 1.1400
    pip_precision := 0.0001
    is_buy := true
    rr_value := 2
    stop_loss_price := none
    take_profit_price := none }

/-- The result the script computes on `c4Input`. -/
def c4Result : RiskResult :=
  { stop_loss_price := 1.1300
    take_profit_price := 1.1600
    sl_pips := 100
    tp_pips := 200
    risk_amount := 100
    reward_amount := 200
    rr_ratio := 2
    suggested_lot_size := 0.10 }

/-- `c4Input` with a negative lot size, an input the spec's error conditions
cover (`lot_size <= 0`). -/
def c2NegInput : RiskInputs :=
  { c4Input with lot_size := -0.1 }

/-- `c4Input` with both price widgets manually overridden. -/
def c5Input : RiskInputs :=
  { c4Input with stop_loss_price := some 1.1350, take_profit_price := some 1.1500 }

/-- A bar whose open, high, low and close all equal `c`, timestamped at hour
`h` of the epoch day. -/
def flatBar (h : Nat) (c : ℚ) : Bar :=
  { Datetime := h * 3600, Open := c, High := c, Low := c, Close := c }

/-- Twentytwo bars at hour 8: twenty closes at 2, one at 1, one at 30.  The
last pair of surviving rows fires the breakout signal (close 1 is below its
MA21 of 41/21, close 30 is above its MA21 of 69/21), and the signal bar is
`flatBar 8 30`, whose high (30) never reaches `tp = 30.003` and whose low
(30) never reaches `sl = 29.998`. -/
def bugBars : List Bar :=
  List.replicate 20 (flatBar 8 2) ++ [flatBar 8 1, flatBar 8 30]

/-- The signal bar of `bugBars`. -/
def bugSignalBar : Bar := flatBar 8 30

/-! ### Helper lemmas -/

/-- Every trade the loop appends carries `result = 1500` and exits at
`entry + 0.0030`: the comparison `result = tp - entry > 0` at lines 218-219
is a tautology, so the `-1000` branch and the `sl` exit are unreachable. -/
theorem backtestLoop_result_exit (rows : List Row) :
    ∀ (bal : ℚ) (prev : Row) (t : Trade), t ∈ backtestLoop bal prev rows →
      t.result = 1500 ∧ t.exit = t.entry + 0.0030 := by
  induction rows with
  | nil => intro bal prev t ht; simp [backtestLoop] at ht
  | cons curr rest ih =>
    intro bal prev t ht
    by_cases hs : prev.bar.Close < prev.MA21 ∧ curr.bar.Close > curr.MA21
    · norm_num [backtestLoop, hs] at ht
      rcases ht with h | h
      · subst h; norm_num
      · exact ih _ _ _ h
    · norm_num [backtestLoop, hs] at ht
      exact ih _ _ _ ht

/-- The `balance` recorded in the trade at position `k` of the loop's output
is the starting balance plus the sum of the first `k + 1` recorded results. -/
theorem backtestLoop_balance (rows : List Row) :
    ∀ (bal : ℚ) (prev : Row) (k : Nat) (t : Trade),
      (backtestLoop bal prev rows)[k]? = some t →
      t.balance = bal + (((backtestLoop bal prev rows).take (k + 1)).map Trade.result).sum := by
  induction rows with
  | nil => intro bal prev k t ht; simp [backtestLoop] at ht
  | cons curr rest ih =>
    intro bal prev k t ht
    by_cases hs : prev.bar.Close < prev.MA21 ∧ curr.bar.Close > curr.MA21
    · norm_num [backtestLoop, hs] at ht ⊢
      cases k with
      | zero =>
        simp only [List.getElem?_cons_zero, Option.some.injEq] at ht
        subst ht
        simp
      | succ k =>
        simp only [List.getElem?_cons_succ] at ht
        have h2 := ih _ _ _ _ ht
        rw [List.map_take] at h2
        rw [h2, add_assoc]
    · norm_num [backtestLoop, hs] at ht ⊢
      have h2 := ih _ _ _ _ ht
      rw [List.map_take] at h2
      exact h2

/-- Every trade's entry price is the close of one of the rows the loop
walked (the `curr` of its signal pair). -/
theorem backtestLoop_entry_mem (rows : List Row) :
    ∀ (bal : ℚ) (prev : Row) (t : Trade), t ∈ backtestLoop bal prev rows →
      ∃ r ∈ rows, t.entry = r.bar.Close := by
  induction rows with
  | nil => intro bal prev t ht; simp [backtestLoop] at ht
  | cons curr rest ih =>
    intro bal prev t ht
    by_cases hs : prev.bar.Close < prev.MA21 ∧ curr.bar.Close > curr.MA21
    · norm_num [backtestLoop, hs] at ht
      rcases ht with h | h
      · exact ⟨curr, List.mem_cons_self _ _, by rw [h]⟩
      · obtain ⟨r, hr, he⟩ := ih _ _ _ h
        exact ⟨r, List.mem_cons_of_mem _ hr, he⟩
    · norm_num [backtestLoop, hs] at ht
      obtain ⟨r, hr, he⟩ := ih _ _ _ ht
      exact ⟨r, List.mem_cons_of_mem _ hr, he⟩

/-- The bar carried by each surviving row is one of the input bars. -/
theorem rows21_bar_mem (l : List Bar) : ∀ r ∈ rows21 l, r.bar ∈ l := by
  induction l with
  | nil => simp [rows21]
  | cons b rest ih =>
    intro r hr
    rw [rows21] at hr
    by_cases hlen : ((b :: rest).take 21).length = 21
    · rw [if_pos hlen] at hr
      rcases List.mem_cons.mp hr with h | h
      · subst h
        have hm : ((b :: rest).take 21).getLastD b ∈ b :: (b :: rest).take 21 :=
          List.getLastD_mem_cons _ _
        rcases List.mem_cons.mp hm with h1 | h1
        · rw [h1]; exact List.mem_cons_self _ _
        · exact List.take_subset _ _ h1
      · exact List.mem_cons_of_mem _ (ih _ h)
    · rw [if_neg hlen] at hr
      simp at hr

/-- `backtestLoop_balance` lifted to `runBacktest` with its fixed starting
balance of 100000. -/
theorem runBacktest_balance_key (sf : SessionFilter) (bars : List Bar)
    (k : Nat) (t : Trade) (ht : (runBacktest sf bars)[k]? = some t) :
    t.balance = 100000 + (((runBacktest sf bars).take (k + 1)).map Trade.result).sum := by
  cases hrows : rows21 (sessionFilter sf bars) with
  | nil =>
    have h0 : runBacktest sf bars = [] := by rw [runBacktest, hrows]
    rw [h0] at ht; simp at ht
  | cons r rs =>
    have h0 : runBacktest sf bars = backtestLoop 100000 r rs := by
      rw [runBacktest, hrows]
    rw [h0] at ht ⊢
    exact backtestLoop_balance rs 100000 r k t ht

/-- `backtestLoop_result_exit` lifted to `runBacktest`. -/
theorem runBacktest_result_exit (sf : SessionFilter) (bars : List Bar)
    (t : Trade) (ht : t ∈ runBacktest sf bars) :
    t.result = 1500 ∧ t.exit = t.entry + 0.0030 := by
  cases hrows : rows21 (sessionFilter sf bars) with
  | nil =>
    have h0 : runBacktest sf bars = [] := by rw [runBacktest, hrows]
    rw [h0] at ht; simp at ht
  | cons r rs =>
    have h0 : runBacktest sf bars = backtestLoop 100000 r rs := by
      rw [runBacktest, hrows]
    rw [h0] at ht
    exact backtestLoop_result_exit rs 100000 r t ht

/-- `List.find?` returns the marked element when everything in front of it
fails the predicate. -/
theorem find?_skip_misses {α : Type} (p : α → Bool) (s : α) (post : List α)
    (hs : p s = true) :
    ∀ pre : List α, (∀ t ∈ pre, p t = false) →
      (pre ++ s :: post).find? p = some s := by
  intro pre
  induction pre with
  | nil => intro _; simp [List.find?_cons_of_pos _ hs]
  | cons a pre ih =>
    intro h
    rw [List.cons_append, List.find?_cons_of_neg]
    · exact ih fun t htp => h t (List.mem_cons_of_mem _ htp)
    · simp [h a (List.mem_cons_self _ _)]

/-! ### Claim theorems -/

/-- C1: the claim says the trade's exit and profit are resolved from the
signal bar's high/low (tp hit ⇒ +1500, else sl hit ⇒ −1000, else flat exit
at close with profit 0).  The code instead compares `result = tp - entry`,
a constant `0.0030 > 0`, so it records profit +1500 and exit `tp` even on
`bugBars`, whose signal bar has `High` strictly below tp and `Low` strictly
above sl — where the claim requires a flat trade with profit 0 exiting at
the close. -/
theorem runBacktest_ignores_bar_high_low :
    (bugSignalBar.High < bugSignalBar.Close + 0.0030 ∧
      bugSignalBar.Close - 0.0020 < bugSignalBar.Low) ∧
    runBacktest .All bugBars =
      [{ entry := bugSignalBar.Close, exit := bugSignalBar.Close + 0.0030,
         result := 1500, balance := 101500 }] := by
  norm_num [runBacktest, rows21, backtestLoop, sessionFilter, bugBars, flatBar,
    bugSignalBar, List.replicate, List.getLastD]

/-- C2 (counterexample): at `lot_size = -0.1 ≤ 0` the computation does not
fail at all — it returns a result — so "fails with an InvalidParameter error
whenever `lot_size <= 0`" is false on the code. -/
theorem computeRisk_negative_lot_size_ok :
    c2NegInput.lot_size ≤ 0 ∧ (computeRisk c2NegInput).isOk = true := by
  norm_num [computeRisk, c2NegInput, c4Input, Except.isOk, Except.toBool]

/-- C2 (amended): the code performs no InvalidParameter validation.  When
`lot_size = 0` (or `lot_size ≠ 0` but `pip_precision = 0`) the evaluation
fails with a division-by-zero error, reported to the caller with no partial
result; when both are nonzero — in particular under the claimed
preconditions `lot_size > 0` and `pip_precision > 0` — no division by zero
occurs and a result is returned. -/
theorem computeRisk_division_behavior (inp : RiskInputs) :
    (inp.lot_size = 0 → computeRisk inp = .error CalcError.zeroDivision) ∧
    (inp.lot_size ≠ 0 → inp.pip_precision = 0 →
      computeRisk inp = .error CalcError.zeroDivision) ∧
    (inp.lot_size ≠ 0 → inp.pip_precision ≠ 0 → (computeRisk inp).isOk = true) := by
  refine ⟨fun h0 => ?_, fun h1 h0 => ?_, fun h1 h2 => ?_⟩
  · rw [computeRisk, if_pos (by rw [h0, zero_mul])]
  · rw [computeRisk, if_neg (by simpa using h1), if_pos h0]
  · rw [computeRisk, if_neg (by simpa using h1), if_neg h2]
    rfl

/-- C3: in every trade list `runBacktest` returns, the trade at position `k`
carries `balance = 100000 +` the sum of the first `k + 1` recorded
`result` values, and the last trade carries `balance = 100000 +` the sum of
all recorded `result` values, in order. -/
theorem runBacktest_balance_conservation (sf : SessionFilter) (bars : List Bar) :
    (∀ (k : Nat) (t : Trade), (runBacktest sf bars)[k]? = some t →
      t.balance = 100000 + (((runBacktest sf bars).take (k + 1)).map Trade.result).sum) ∧
    (∀ t : Trade, (runBacktest sf bars).getLast? = some t →
      t.balance = 100000 + ((runBacktest sf bars).map Trade.result).sum) := by
  refine ⟨runBacktest_balance_key sf bars, ?_⟩
  intro t ht
  have hne : runBacktest sf bars ≠ [] := by
    intro h0; rw [h0] at ht; simp at ht
  rw [List.getLast?_eq_getElem?] at ht
  have h2 := runBacktest_balance_key sf bars _ _ ht
  rwa [Nat.sub_add_cancel (List.length_pos.mpr hne), List.take_length] at h2

/-- C4: on the reference inputs (1% of 10000, lot 0.10, pip 0.0001, entry
1.1400, Buy, reward 1:2) the default sizing yields `risk_dollar = 100`,
`sl_pips = 100`, `tp_pips = 200`, `sl_price = 1.1300`, `tp_price = 1.1600`,
and the full evaluation returns exactly those prices and pips together with
`risk_amount = 100`, `reward_amount = 200`, `rr_ratio = 2`,
`suggested_lot_size = 0.10`. -/
theorem computeRisk_reference_example :
    risk_dollar c4Input = 100 ∧ default_sl_pips c4Input = 100 ∧
    default_tp_pips c4Input = 200 ∧ sl_price c4Input = 1.1300 ∧
    tp_price c4Input = 1.1600 ∧
    computeRisk c4Input = .ok c4Result := by
  norm_num [computeRisk, risk_dollar, default_sl_pips, default_tp_pips,
    sl_price, tp_price, c4Input, c4Result, abs_of_pos]

/-- C5: when both manual prices are supplied (and the evaluation can run at
all, `lot_size ≠ 0` and `pip_precision ≠ 0`), the reported pips are
recomputed unconditionally from absolute price deltas —
`sl_pips = |entry − stop_loss| / pip`, `tp_pips = |take_profit − entry| / pip`
— and flipping the direction flag leaves both recomputed pip values
unchanged. -/
theorem computeRisk_manual_override (inp : RiskInputs) (slp tpp : ℚ)
    (hsl : inp.stop_loss_price = some slp) (htp : inp.take_profit_price = some tpp)
    (hlot : inp.lot_size ≠ 0) (hpip : inp.pip_precision ≠ 0) :
    ∃ r : RiskResult, computeRisk inp = .ok r ∧
      r.sl_pips = |inp.entry_price - slp| / inp.pip_precision ∧
      r.tp_pips = |tpp - inp.entry_price| / inp.pip_precision ∧
      ∀ b : Bool, ∃ r2 : RiskResult, computeRisk { inp with is_buy := b } = .ok r2 ∧
        r2.sl_pips = r.sl_pips ∧ r2.tp_pips = r.tp_pips := by
  have h10 : inp.lot_size * 10 ≠ 0 := by simpa using hlot
  simp only [computeRisk, if_neg h10, if_neg hpip, hsl, htp, Option.getD_some]
  refine ⟨_, rfl, rfl, rfl, ?_⟩
  intro b
  exact ⟨_, rfl, rfl, rfl⟩

/-- C5 (witness): the override law instantiated at `c5Input`, whose widgets
are overridden to 1.1350 and 1.1500. -/
theorem computeRisk_manual_override_witness :
    ∃ r : RiskResult, computeRisk c5Input = .ok r ∧
      r.sl_pips = |c5Input.entry_price - 1.1350| / c5Input.pip_precision ∧
      r.tp_pips = |1.1500 - c5Input.entry_price| / c5Input.pip_precision ∧
      ∀ b : Bool, ∃ r2 : RiskResult, computeRisk { c5Input with is_buy := b } = .ok r2 ∧
        r2.sl_pips = r.sl_pips ∧ r2.tp_pips = r.tp_pips :=
  computeRisk_manual_override c5Input 1.1350 1.1500 rfl rfl
    (by norm_num [c5Input, c4Input]) (by norm_num [c5Input, c4Input])

/-- C6: the London filter keeps exactly the bars whose hour lies in [7,16]
(New York: [13,21]; All: everything), preserves the original order
(sublist), and every trade of a London backtest takes its entry from a
filtered bar whose hour lies in [7,16]. -/
theorem sessionFilter_backtest_window (bars : List Bar) :
    (∀ b : Bar, b ∈ sessionFilter .London bars ↔
      b ∈ bars ∧ (7 ≤ b.Hour ∧ b.Hour ≤ 16)) ∧
    (∀ b : Bar, b ∈ sessionFilter .NewYork bars ↔
      b ∈ bars ∧ (13 ≤ b.Hour ∧ b.Hour ≤ 21)) ∧
    sessionFilter .All bars = bars ∧
    (sessionFilter .London bars).Sublist bars ∧
    (sessionFilter .NewYork bars).Sublist bars ∧
    (∀ t ∈ runBacktest .London bars, ∃ b, b ∈ sessionFilter .London bars ∧
      t.entry = b.Close ∧ 7 ≤ b.Hour ∧ b.Hour ≤ 16) := by
  refine ⟨?_, ?_, rfl, List.filter_sublist _, List.filter_sublist _, ?_⟩
  · intro b
    simp [sessionFilter, List.mem_filter]
  · intro b
    simp [sessionFilter, List.mem_filter]
  · intro t ht
    cases hrows : rows21 (sessionFilter .London bars) with
    | nil =>
      have h0 : runBacktest .London bars = [] := by rw [runBacktest, hrows]
      rw [h0] at ht; simp at ht
    | cons r rs =>
      have h0 : runBacktest .London bars = backtestLoop 100000 r rs := by
        rw [runBacktest, hrows]
      rw [h0] at ht
      obtain ⟨row, hrow, he⟩ := backtestLoop_entry_mem rs 100000 r t ht
      have hmem : row.bar ∈ sessionFilter .London bars := by
        apply rows21_bar_mem
        rw [hrows]
        exact List.mem_cons_of_mem _ hrow
      have hh : row.bar ∈ bars ∧ 7 ≤ row.bar.Hour ∧ row.bar.Hour ≤ 16 := by
        simpa [sessionFilter, List.mem_filter] using hmem
      exact ⟨row.bar, hmem, he, hh.2.1, hh.2.2⟩

/-- C7: whenever the evaluation returns a result, `rr_ratio` equals
`reward_amount / risk_amount` when `risk_amount > 0` and equals 0 when
`risk_amount = 0`; the guarded ratio never divides by zero. -/
theorem computeRisk_rr_ratio (inp : RiskInputs) (r : RiskResult)
    (h : computeRisk inp = .ok r) :
    (0 < r.risk_amount → r.rr_ratio = r.reward_amount / r.risk_amount) ∧
    (r.risk_amount = 0 → r.rr_ratio = 0) := by
  by_cases h1 : inp.lot_size * 10 = 0
  · rw [computeRisk, if_pos h1] at h
    exact absurd h (by simp)
  by_cases h2 : inp.pip_precision = 0
  · rw [computeRisk, if_neg h1, if_pos h2] at h
    exact absurd h (by simp)
  simp only [computeRisk, if_neg h1, if_neg h2, Except.ok.injEq] at h
  subst h
  refine ⟨fun hpos => ?_, fun hzero => ?_⟩
  · dsimp only at hpos ⊢
    rw [if_pos (ne_of_gt hpos)]
  · dsimp only at hzero ⊢
    rw [if_neg (not_not_intro hzero)]

/-- C7 (witness): the ratio law instantiated at the reference inputs, where
`risk_amount = 100 > 0` and `rr_ratio = 2 = 200 / 100`. -/
theorem computeRisk_rr_ratio_witness :
    c4Result.rr_ratio = c4Result.reward_amount / c4Result.risk_amount :=
  (computeRisk_rr_ratio c4Input c4Result (by
    norm_num [computeRisk, risk_dollar, default_sl_pips, default_tp_pips,
      sl_price, tp_price, c4Input, c4Result, abs_of_pos])).1
    (by norm_num [c4Result])

/-- C8: the local fallback file is read only when the request raises; a
completed response with a status other than 200 yields `None` — no fallback,
no error — and the caller that builds the symbol-name list then crashes
(`TypeError`) on that reachable non-exceptional outcome; a 200 response
yields its body. -/
theorem load_symbols_fallback_behavior (cfg : List SymbolSpec) :
    load_symbols .exn cfg = some cfg ∧
    (∀ (code : Nat) (body : List SymbolSpec), code ≠ 200 →
      load_symbols (.response code body) cfg = none ∧
      symbol_names (load_symbols (.response code body) cfg) = .error ()) ∧
    (∀ body : List SymbolSpec, load_symbols (.response 200 body) cfg = some body) := by
  refine ⟨rfl, ?_, fun body => rfl⟩
  intro code body hc
  constructor <;> simp [load_symbols, symbol_names, hc]

/-- C9: every trade the backtest records carries `result = 1500` and
`exit = entry + 0.0030` regardless of the bar's high and low, so consecutive
recorded balances always differ by exactly +1500 (strictly increasing in
steps of 1500). -/
theorem runBacktest_fixed_payoff (sf : SessionFilter) (bars : List Bar) :
    (∀ t ∈ runBacktest sf bars, t.result = 1500 ∧ t.exit = t.entry + 0.0030) ∧
    (∀ (k : Nat) (t t2 : Trade), (runBacktest sf bars)[k]? = some t →
      (runBacktest sf bars)[k + 1]? = some t2 → t2.balance = t.balance + 1500) := by
  refine ⟨fun t ht => runBacktest_result_exit sf bars t ht, ?_⟩
  intro k t t2 ht ht2
  have hb := runBacktest_balance_key sf bars k t ht
  have hb2 := runBacktest_balance_key sf bars (k + 1) t2 ht2
  rw [List.take_succ, ht2] at hb2
  have hr2 : t2.result = 1500 :=
    (runBacktest_result_exit sf bars t2 (List.getElem?_mem ht2)).1
  rw [List.map_append, List.sum_append] at hb2
  simp only [Option.toList_some, List.map_cons, List.map_nil, List.sum_cons,
    List.sum_nil, add_zero, hr2] at hb2
  rw [hb2, hb]
  ring

/-- C10: when no record of the symbol list matches the selected symbol the
pip precision silently defaults to 0.0001; when some record matches, the
first matching record's `pip_precision` is used. -/
theorem pip_precision_first_match (symbols : List SymbolSpec) (sel : String) :
    ((∀ s ∈ symbols, s.symbol ≠ sel) → pip_precision_for symbols sel = 0.0001) ∧
    (∀ (pre post : List SymbolSpec) (s : SymbolSpec),
      symbols = pre ++ s :: post → s.symbol = sel → (∀ t ∈ pre, t.symbol ≠ sel) →
      pip_precision_for symbols sel = s.pip_precision) := by
  constructor
  · intro hnone
    rw [pip_precision_for]
    rw [List.find?_eq_none.mpr fun x hx => by simpa using hnone x hx]
  · intro pre post s hsym hs hpre
    subst hsym
    rw [pip_precision_for, find?_skip_misses _ s post (by simpa using hs) pre
      fun t htp => by simpa using hpre t htp]
